import Mathlib

/-!
Verification development for the bellflow scraping backend.

This file gives a shallow embedding, in Lean, of the job-orchestration core of
the repository: the `ScrapeJob` data model (`app/scraper/engines/base_engine.py`),
the asynchronous Bright Data engine (`app/scraper/engines/brightdata_engine.py`),
the synchronous Playwright engine (`app/scraper/engines/playwright_engine.py`),
the Threads metric-extraction heuristic (`app/scraper/platforms/threads.py`) and
the job registry (`app/scraper/job_manager.py`).  External effects (HTTP polls,
page evaluation, clocks) are passed in as explicit inputs; Python dictionaries
become association lists; datetimes become integer timestamps in seconds.
-/

namespace Bellflow

/-! ## Data model (base_engine.py) -/

/-- Status of a scraping job, from `JobStatus` in `base_engine.py`. -/
inductive JobStatus where
  | pending
  | running
  | completed
  | failed
deriving DecidableEq, Repr

/-- Progress bag attached to in-flight jobs (the `progress` dicts built in
`brightdata_engine.py` carry at most a `message` and a `snapshot_id` key). -/
structure Progress where
  message : Option String := none
  snapshot_id : Option String := none
deriving DecidableEq, Repr

/-- One normalized post record, as produced by either engine
(the item dicts with keys text, link, likes, comments, reposts, date_posted, views). -/
structure Item where
  text : String := ""
  link : Option String := none
  likes : Option Int := none
  comments : Option Int := none
  reposts : Option Int := none
  date_posted : Option String := none
  views : Option Int := none
deriving DecidableEq, Repr

/-- The normalized result payload (the result dicts built by
`_transform_brightdata_response` and `_execute_scrape`; the selector-not-found
path of `_execute_scrape` omits the item fields, which here keep defaults and
set `error`).  `scraped_at` and `elapsed_time` are integer timestamps/seconds. -/
structure ResultData where
  scraped_at : Int := 0
  url : String := ""
  platform : String := ""
  user_id : String := ""
  total_items : Nat := 0
  post_limit : Option Nat := none
  time_limit : Option Nat := none
  elapsed_time : Int := 0
  selector_used : Option String := none
  items : List Item := []
  error : Option String := none
deriving DecidableEq, Repr

/-- The `ScrapeJob` dataclass from `base_engine.py`. -/
structure ScrapeJob where
  job_id : String
  status : JobStatus
  platform : String
  url : String
  user_id : String
  created_at : Int
  updated_at : Int
  result : Option ResultData := none
  error : Option String := none
  progress : Option Progress := none
deriving DecidableEq, Repr

/-- Rank of a status along the forward direction of the state machine:
pending before running before the two terminal states. -/
def statusRank : JobStatus → Nat
  | .pending => 0
  | .running => 1
  | .completed => 2
  | .failed => 2

/-- A job status is terminal when it is completed or failed (the check
`job.status in [JobStatus.COMPLETED, JobStatus.FAILED]` in the engines). -/
def isTerminal : JobStatus → Bool
  | .completed => true
  | .failed => true
  | _ => false

/-! ## Association-list model of Python dictionaries -/

/-- Remove every binding of a key; models `dict.pop(k, None)` on a map whose
keys are unique. -/
def eraseKey (k : String) (l : List (String × α)) : List (String × α) :=
  l.filter (fun p => p.1 ≠ k)

/-- Bind a key to a value; models `d[k] = v`. -/
def insertKey (k : String) (v : α) (l : List (String × α)) : List (String × α) :=
  (k, v) :: eraseKey k l

/-! ## Threads metric-extraction heuristic (threads.py, extract_post_data) -/

/-- Split a character sequence at newline characters, the `text.split` done in
the in-page extraction script. -/
def splitLinesAux : List Char → List Char → List (List Char)
  | [], acc => [acc.reverse]
  | c :: rest, acc =>
    if c = '\n' then acc.reverse :: splitLinesAux rest []
    else splitLinesAux rest (c :: acc)

/-- Lines of a text, split on the newline character. -/
def splitLines (cs : List Char) : List (List Char) :=
  splitLinesAux cs []

/-- Remove leading and trailing whitespace, the `line.trim()` calls. -/
def trimChars (cs : List Char) : List Char :=
  ((cs.dropWhile Char.isWhitespace).reverse.dropWhile Char.isWhitespace).reverse

/-- True when the trimmed line is one or more decimal digits, the test
performed by the regular expression in `extract_post_data`. -/
def isDigitsOnly (cs : List Char) : Bool :=
  !cs.isEmpty && cs.all Char.isDigit

/-- Numeric value of a digit string, the `parseInt` call. -/
def digitsVal (cs : List Char) : Nat :=
  cs.foldl (fun a c => a * 10 + (c.toNat - 48)) 0

/-- Standalone numeric lines of a post's visible text: split on newlines, keep
nonempty trimmed lines, keep all-digit lines, parse them. -/
def extractNumbers (text : String) : List Nat :=
  (((splitLines text.data).filter (fun l => !(trimChars l).isEmpty)).filter
      (fun l => isDigitsOnly (trimChars l))).map (fun l => digitsVal (trimChars l))

/-- The k-th element counted from the end of the list (k = 1 is the last
element); models Python negative indexing `numbers[-k]`. -/
def nthFromEnd (l : List Nat) (k : Nat) : Option Nat :=
  l.reverse[k - 1]?

/-- Positional assignment of trailing numeric tokens to (likes, comments,
reposts), exactly as in `ThreadsScraper.extract_post_data`: with at least four
numbers use positions -4, -3, -2; with exactly three use -3, -2, -1; with
fewer than three leave all metrics unset. -/
def assignMetrics (numbers : List Nat) : Option Nat × Option Nat × Option Nat :=
  if numbers.length ≥ 3 then
    ((if numbers.length ≥ 4 then nthFromEnd numbers 4 else nthFromEnd numbers 3),
     (if numbers.length ≥ 4 then nthFromEnd numbers 3 else nthFromEnd numbers 2),
     (if numbers.length ≥ 4 then nthFromEnd numbers 2 else nthFromEnd numbers 1))
  else (none, none, none)

/-- Metric assignment applied to a post's visible text. -/
def extractPostMetrics (text : String) : Option Nat × Option Nat × Option Nat :=
  assignMetrics (extractNumbers text)

/-! ## Date-range heuristic (brightdata_engine.py, _convert_limit_to_dates) -/

/-- Conversion of a post limit to a provider date range, from
`_convert_limit_to_dates`.  Dates are integer timestamps in seconds; the
returned pair is (start_date, end_date) with end_date = now.  The Python
guard `not post_limit` is true for both `None` and `0`. -/
def convertLimitToDates (postLimit : Option Int) (now : Int) : Int × Int :=
  let days : Int :=
    match postLimit with
    | none => 365
    | some n =>
      if n = 0 ∨ n ≥ 500 then 365
      else if n ≥ 100 then 90
      else if n ≥ 50 then 30
      else 7
  (now - days * 86400, now)

/-! ## Bright Data engine (brightdata_engine.py) -/

/-- Python `str.lower()`, character by character. -/
def lowerStr (s : String) : String :=
  ⟨s.data.map Char.toLower⟩

/-- The `DATASET_IDS` table: datasets keyed by lowercased platform name. -/
def datasetIdFor (p : String) : Option String :=
  if p = "twitter" then some "gd_lwxkxvnf1cynvib9co"
  else if p = "linkedin" then some "gd_l7q7dkf244hwzk73o"
  else none

/-- One provider record, a JSON object whose possible keys are the ones read
by `_transform_brightdata_response` and the error/warning markers checked in
`get_status`.  An `Option` field is `none` when the key is absent. -/
structure BDRecord where
  err_marker : Option String := none
  warn_marker : Option String := none
  description : Option String := none
  url : Option String := none
  text : Option String := none
  post_url : Option String := none
  link : Option String := none
  likes : Option Int := none
  replies : Option Int := none
  comments : Option Int := none
  reposts : Option Int := none
  shares : Option Int := none
  num_likes : Option Int := none
  num_comments : Option Int := none
  num_shares : Option Int := none
  date : Option String := none
  date_posted : Option String := none
  views : Option Int := none
deriving DecidableEq, Repr

/-- Python `a or b` on two optional strings: an absent or empty first operand
falls through to the second. -/
def pyOrStr (a b : Option String) : Option String :=
  match a with
  | some s => if s = "" then b else some s
  | none => b

/-- Python `a or b` on two optional integers: an absent or zero first operand
falls through to the second. -/
def pyOrInt (a b : Option Int) : Option Int :=
  match a with
  | some v => if v = 0 then b else some v
  | none => b

/-- Python `x or ""`. -/
def strOrEmpty (a : Option String) : String :=
  a.getD ""

/-- Per-platform field normalization of one provider record, from
`_transform_brightdata_response`. -/
def transformRecord (platform : String) (r : BDRecord) : Item :=
  if platform = "twitter" then
    { text := strOrEmpty r.description, link := r.url, likes := r.likes,
      comments := r.replies, reposts := r.reposts,
      date_posted := r.date_posted, views := r.views }
  else if platform = "linkedin" then
    { text := strOrEmpty (pyOrStr r.text r.description),
      link := pyOrStr r.url r.post_url,
      likes := pyOrInt r.num_likes r.likes,
      comments := pyOrInt r.num_comments r.comments,
      reposts := pyOrInt r.num_shares r.reposts,
      date_posted := pyOrStr r.date r.date_posted }
  else
    { text := strOrEmpty (pyOrStr r.text r.description),
      link := pyOrStr r.url r.link,
      likes := r.likes, comments := r.comments,
      reposts := pyOrInt r.reposts r.shares }

/-- Normalization of a completed provider response into the shared result
shape, from `_transform_brightdata_response`. -/
def transformBD (data : List BDRecord) (job : ScrapeJob) (now : Int) : ResultData :=
  let items := data.map (transformRecord job.platform)
  { scraped_at := now, url := job.url, platform := job.platform,
    user_id := job.user_id, total_items := items.length,
    post_limit := none, time_limit := none,
    elapsed_time := now - job.created_at,
    selector_used := some "BrightData API", items := items }

/-- Outcome of the provider submission HTTP call made by the engine's
initialization: a transport exception, a non-200 status, a 200 reply without
a snapshot id, or a snapshot id. -/
inductive SubmitOutcome where
  | exn (msg : String)
  | httpErr (code : Nat) (text : String)
  | noSnapshot (body : String)
  | accepted (snapshotId : String)
deriving DecidableEq, Repr

/-- Mutable state of a `BrightDataEngine` instance: the `jobs` and
`snapshot_map` dictionaries. -/
structure BDState where
  jobs : List (String × ScrapeJob) := []
  snapshotMap : List (String × String) := []
deriving DecidableEq, Repr

/-- A fresh engine state (both dictionaries empty, as in `__init__`). -/
def bdEmpty : BDState := {}

/-- The pending job record created at the top of the engine's initialization
call, before the submission is attempted. -/
def bdInitJob (jobId platform url userId : String) (now : Int) : ScrapeJob :=
  { job_id := jobId, status := .pending, platform := platform, url := url,
    user_id := userId, created_at := now, updated_at := now }

/-- The text of the unsupported-platform `ValueError` raised (and caught)
inside the engine's initialization call. -/
def unsupportedMsg (platform : String) : String :=
  "Platform \x27" ++ platform ++
    "\x27 not supported by Bright Data engine. Supported platforms: [\x27twitter\x27, \x27linkedin\x27]"

/-- The Bright Data engine's job initialization (`initialize_scrape`): create
a pending job, store it, then look up the dataset for the platform and submit.
A missing dataset or any submission failure is caught and flips the job to
failed; a successful submission records the snapshot id and flips the job to
running.  Returns the job, the new engine state, and whether the provider
submission was attempted (the HTTP call is only reached when the dataset
lookup succeeds).  `now` is the creation time, `now2` the mutation time. -/
def bdInitScrape (s : BDState) (url userId platform : String)
    (_postLimit : Option Int) (submit : SubmitOutcome) (jobId : String)
    (now now2 : Int) : ScrapeJob × BDState × Bool :=
  let job0 := bdInitJob jobId platform url userId now
  match datasetIdFor (lowerStr platform) with
  | none =>
    let j := { job0 with
        status := .failed, error := some (unsupportedMsg platform), updated_at := now2 }
    (j, { s with jobs := insertKey jobId j s.jobs }, false)
  | some _ =>
    match submit with
    | .exn msg =>
      let j := { job0 with status := .failed, error := some msg, updated_at := now2 }
      (j, { s with jobs := insertKey jobId j s.jobs }, true)
    | .httpErr code text =>
      let j := { job0 with
        status := .failed
        error := some ("Bright Data API error: " ++ toString code ++ " - " ++ text)
        updated_at := now2 }
      (j, { s with jobs := insertKey jobId j s.jobs }, true)
    | .noSnapshot body =>
      let j := { job0 with
        status := .failed
        error := some ("No snapshot_id in Bright Data response: " ++ body)
        updated_at := now2 }
      (j, { s with jobs := insertKey jobId j s.jobs }, true)
    | .accepted snapId =>
      let j := { job0 with
        status := .running
        updated_at := now2
        progress := some { message := some "Scraping job submitted to Bright Data"
                           snapshot_id := some snapId } }
      (j, { jobs := insertKey jobId j s.jobs,
            snapshotMap := insertKey jobId snapId s.snapshotMap }, true)

/-- Shape of one poll of the provider's snapshot endpoint, as distinguished
by `get_status`: a 202 (whose body may fail to parse, carried as the outer
`Option`, or parse with or without a message key), a 404, another non-200
status (which raises and is caught), a 200 dict with status running, a 200
body that is neither such a dict nor a list, a 200 list of records, or a
transport/parse exception. -/
inductive PollResponse where
  | status202 (body : Option (Option String))
  | status404
  | httpErr (code : Nat) (text : String)
  | okRunning (msg : Option String)
  | okOther
  | okList (records : List BDRecord)
  | exn (msg : String)
deriving DecidableEq, Repr

/-- The new value of a non-terminal job after one poll, following the branch
structure of `get_status`: a missing snapshot id fails the job before any
network call; in-progress shapes only touch `progress` and `updated_at`; a
list is the completion signal (an error marker on its first element fails the
job, otherwise it completes with the normalized result); a raised exception
is caught and fails the job with the exception text. -/
def bdPollUpdate (job : ScrapeJob) (hasSnap : Bool) (resp : PollResponse)
    (now : Int) : ScrapeJob :=
  if !hasSnap then
    { job with
      status := .failed
      error := some "No snapshot_id found for job"
      updated_at := now }
  else
    match resp with
    | .status202 body =>
      let m := match body with
        | none => "Scraping in progress..."
        | some mo => mo.getD "Snapshot is being processed..."
      { job with progress := some { message := some m }, updated_at := now }
    | .status404 =>
      { job with
        progress := some { message := some "Snapshot not ready yet" }
        updated_at := now }
    | .httpErr code text =>
      { job with
        status := .failed
        error := some ("Error checking status: API error: " ++ toString code ++ " - " ++ text)
        updated_at := now }
    | .okRunning msg =>
      { job with
        progress := some { message := some (msg.getD "Scraping in progress...") }
        updated_at := now }
    | .okOther => job
    | .okList records =>
      match records.head? with
      | some r =>
        if r.err_marker.isSome then
          { job with
            status := .failed
            error := some ("Bright Data error: " ++ r.err_marker.getD "Unknown error")
            updated_at := now }
        else
          { job with
            status := .completed
            result := some (transformBD records job now)
            updated_at := now }
      | none =>
        { job with
          status := .completed
          result := some (transformBD records job now)
          updated_at := now }
    | .exn msg =>
      { job with
        status := .failed
        error := some ("Error checking status: " ++ msg)
        updated_at := now }

/-- Errors the engines raise to their caller: unknown job id, results
requested before completion (carrying the current status and progress), and
a completed job without a stored result. -/
inductive EngineError where
  | notFound (jobId : String)
  | notReady (jobId : String) (status : JobStatus) (progress : Option Progress)
  | noResults (jobId : String)
deriving DecidableEq, Repr

/-- The Bright Data engine's `get_status`: an unknown id raises; a terminal
job is returned from cache without a poll; otherwise the job is updated from
the poll response and written back. -/
def bdGetStatus (s : BDState) (jobId : String) (resp : PollResponse)
    (now : Int) : Except EngineError (ScrapeJob × BDState) :=
  match List.lookup jobId s.jobs with
  | none => .error (.notFound jobId)
  | some job =>
    if isTerminal job.status then .ok (job, s)
    else
      let j := bdPollUpdate job (List.lookup jobId s.snapshotMap).isSome resp now
      .ok (j, { s with jobs := insertKey jobId j s.jobs })

/-- The Bright Data engine's `get_results`: refresh via `get_status`, then
fail unless the refreshed status is completed and a result is stored. -/
def bdGetResults (s : BDState) (jobId : String) (resp : PollResponse)
    (now : Int) : Except EngineError (ResultData × BDState) :=
  match bdGetStatus s jobId resp now with
  | .error e => .error e
  | .ok (job, s') =>
    if job.status ≠ .completed then .error (.notReady jobId job.status job.progress)
    else
      match job.result with
      | none => .error (.noResults jobId)
      | some r => .ok (r, s')

/-- The Bright Data engine's `cancel_job`: unknown or terminal jobs are left
untouched and report false; otherwise the job is failed with a cancellation
message and true is reported. -/
def bdCancel (s : BDState) (jobId : String) (now : Int) : Bool × BDState :=
  match List.lookup jobId s.jobs with
  | none => (false, s)
  | some job =>
    if isTerminal job.status then (false, s)
    else
      let j := { job with
          status := .failed
          error := some "Job cancelled by user"
          updated_at := now }
      (true, { s with jobs := insertKey jobId j s.jobs })

/-- One observable operation on a Bright Data engine instance, with the
external world's replies as data. -/
inductive BDOp where
  | start (url userId platform : String) (postLimit : Option Int)
      (submit : SubmitOutcome) (jobId : String) (now now2 : Int)
  | poll (jobId : String) (resp : PollResponse) (now : Int)
  | cancel (jobId : String) (now : Int)

/-- Effect of one operation on the engine state. -/
def bdApply (s : BDState) (op : BDOp) : BDState :=
  match op with
  | .start url userId platform pl submit jid now now2 =>
    (bdInitScrape s url userId platform pl submit jid now now2).2.1
  | .poll jid resp now =>
    match bdGetStatus s jid resp now with
    | .ok (_, s') => s'
    | .error _ => s
  | .cancel jid now => (bdCancel s jid now).2

/-- Effect of a sequence of operations. -/
def bdRun (s : BDState) (ops : List BDOp) : BDState :=
  ops.foldl bdApply s

/-- True when a job-creating operation's job id is not already registered
(the engine generates a fresh UUID per job; ids are never reused). -/
def bdOpFreshOk (s : BDState) : BDOp → Bool
  | .start _ _ _ _ _ jid _ _ => (List.lookup jid s.jobs).isNone
  | _ => true

/-- Every job-creating operation in the sequence uses a job id that is not
already registered at the time it runs. -/
def bdFresh : BDState → List BDOp → Bool
  | _, [] => true
  | s, op :: ops => bdOpFreshOk s op && bdFresh (bdApply s op) ops

/-! ## Playwright engine (playwright_engine.py) -/

/-- The post-limit stopping test of one scroll iteration, from the guard
`if post_limit and current_count >= post_limit` (a limit of 0 is falsy in
Python and never stops the loop). -/
def limitStop (postLimit : Option Nat) (cur : Nat) : Bool :=
  match postLimit with
  | some p => decide (p ≠ 0) && decide (cur ≥ p)
  | none => false

/-- One pass of the scroll loop of `_scroll_and_load`, with the remaining
iteration budget as fuel.  `counts i` is the selector match count observed at
iteration `i`; `timeStop i` says whether the elapsed-time budget is exhausted
when iteration `i` checks it.  Returns the final count and the number of
iterations performed.  The loop breaks when a limit is hit or when the count
equals the previous iteration's count. -/
def scrollAux (counts : Nat → Nat) (postLimit : Option Nat) (timeStop : Nat → Bool) :
    Nat → Nat → Nat → Nat × Nat
  | 0, _, last => (last, 0)
  | fuel + 1, i, last =>
    let cur := counts i
    if limitStop postLimit cur || timeStop i then (cur, 1)
    else if cur = last then (cur, 1)
    else
      let r := scrollAux counts postLimit timeStop fuel (i + 1) cur
      (r.1, r.2 + 1)

/-- The scroll-until-stable loop of `_scroll_and_load`: up to `maxScrolls`
iterations (default 500), starting with `last_count = 0`. -/
def scrollAndLoad (counts : Nat → Nat) (postLimit : Option Nat)
    (timeStop : Nat → Bool) (maxScrolls : Nat) : Nat × Nat :=
  scrollAux counts postLimit timeStop maxScrolls 0 0

/-- Truncation of the extracted items to the post limit, from
`if post_limit and len(items) > post_limit: items = items[:post_limit]`. -/
def applyPostLimit (postLimit : Option Nat) (items : List Item) : List Item :=
  match postLimit with
  | some p => if p ≠ 0 ∧ items.length > p then items.take p else items
  | none => items

/-- The page-side behavior of one synchronous scrape, the external input of
`_execute_scrape`: an exception somewhere in the body (navigation, selector
evaluation, extraction), selector discovery finding no matching selector, or
a working selector together with the per-iteration match counts, the
time-budget flag per iteration, and the extracted raw items. -/
inductive ExecOutcome where
  | raised (msg : String)
  | noSelector
  | found (selector : String) (counts : Nat → Nat) (timeStop : Nat → Bool)
      (extracted : List Item)

/-- The body of `_execute_scrape`: an exception propagates (as `Except.error`,
caught by the caller); a failed selector discovery returns a soft-failure
result dict; otherwise the scroll loop runs, the extracted items are truncated
to the post limit, and the normalized result is built. -/
def pwExecuteScrape (url userId platform : String) (postLimit timeLimit : Option Nat)
    (outcome : ExecOutcome) (now elapsed : Int) : Except String ResultData :=
  match outcome with
  | .raised msg => .error msg
  | .noSelector =>
    .ok { scraped_at := now, url := url, platform := platform, user_id := userId,
          error := some "No posts found" }
  | .found selector counts timeStop extracted =>
    let _finalCount := (scrollAndLoad counts postLimit timeStop 500).1
    let items := applyPostLimit postLimit extracted
    .ok { scraped_at := now, url := url, platform := platform, user_id := userId,
          total_items := items.length, post_limit := postLimit,
          time_limit := timeLimit, elapsed_time := elapsed,
          selector_used := some selector, items := items }

/-- Mutable state of a `PlaywrightEngine` instance: its `jobs` dictionary. -/
structure PWState where
  jobs : List (String × ScrapeJob) := []
deriving DecidableEq, Repr

/-- A fresh Playwright engine state. -/
def pwEmpty : PWState := {}

/-- The job record created at the top of the synchronous engine's
initialization call: a synchronous engine starts its jobs at running. -/
def pwInitJob (jobId platform url userId : String) (now : Int) : ScrapeJob :=
  { job_id := jobId, status := .running, platform := platform, url := url,
    user_id := userId, created_at := now, updated_at := now }

/-- The Playwright engine's job initialization: create a running job, store
it, execute the scrape synchronously, and resolve the job to completed with
the result or, when the body raised, to failed with the exception text. -/
def pwInitScrape (s : PWState) (url userId platform : String)
    (postLimit timeLimit : Option Nat) (outcome : ExecOutcome) (jobId : String)
    (now now2 elapsed : Int) : ScrapeJob × PWState :=
  let job0 := pwInitJob jobId platform url userId now
  let j :=
    match pwExecuteScrape url userId platform postLimit timeLimit outcome now2 elapsed with
    | .ok r =>
      { job0 with
        status := .completed
        result := some r
        updated_at := now2 }
    | .error e =>
      { job0 with
        status := .failed
        error := some e
        updated_at := now2 }
  (j, { jobs := insertKey jobId j s.jobs })

/-- The Playwright engine's `get_status`: a pure cache lookup. -/
def pwGetStatus (s : PWState) (jobId : String) : Except EngineError ScrapeJob :=
  match List.lookup jobId s.jobs with
  | none => .error (.notFound jobId)
  | some job => .ok job

/-- The Playwright engine's `get_results`: look the job up, then fail unless
its status is completed and a result is stored. -/
def pwGetResults (s : PWState) (jobId : String) : Except EngineError ResultData :=
  match pwGetStatus s jobId with
  | .error e => .error e
  | .ok job =>
    if job.status ≠ .completed then .error (.notReady jobId job.status none)
    else
      match job.result with
      | none => .error (.noResults jobId)
      | some r => .ok r

/-- The Playwright engine's `cancel_job`: always false, no state change. -/
def pwCancel (_s : PWState) (_jobId : String) : Bool :=
  false

/-- One observable operation on a Playwright engine instance. -/
inductive PWOp where
  | start (url userId platform : String) (postLimit timeLimit : Option Nat)
      (outcome : ExecOutcome) (jobId : String) (now now2 elapsed : Int)
  | status (jobId : String)
  | cancel (jobId : String)
  | results (jobId : String)

/-- Effect of one operation on the engine state: only initialization mutates
the jobs dictionary. -/
def pwApply (s : PWState) (op : PWOp) : PWState :=
  match op with
  | .start url userId platform pl tl outcome jid now now2 elapsed =>
    (pwInitScrape s url userId platform pl tl outcome jid now now2 elapsed).2
  | .status _ => s
  | .cancel _ => s
  | .results _ => s

/-- Effect of a sequence of operations. -/
def pwRun (s : PWState) (ops : List PWOp) : PWState :=
  ops.foldl pwApply s

/-- True when a job-creating operation's job id is not already registered. -/
def pwOpFreshOk (s : PWState) : PWOp → Bool
  | .start _ _ _ _ _ _ jid _ _ _ => (List.lookup jid s.jobs).isNone
  | _ => true

/-- Every job-creating operation uses a job id not already registered when it
runs. -/
def pwFresh : PWState → List PWOp → Bool
  | _, [] => true
  | s, op :: ops => pwOpFreshOk s op && pwFresh (pwApply s op) ops

/-! ## Job manager (job_manager.py) -/

/-- Which engine owns a job; the cleanup path never calls into the engine, so
a tag suffices. -/
inductive EngineRef where
  | brightdata
  | playwright
deriving DecidableEq, Repr

/-- The three tracking structures of `JobManager`: the job map, the job-to-
engine map, and the per-user job-id lists. -/
structure JMState where
  jobs : List (String × ScrapeJob) := []
  engines : List (String × EngineRef) := []
  user_jobs : List (String × List String) := []
deriving DecidableEq, Repr

/-- Apply a function to the value stored at a key, leaving the map unchanged
when the key is absent; models in-place mutation of a dict entry's value. -/
def updateVal (k : String) (f : α → α) (l : List (String × α)) : List (String × α) :=
  l.map (fun p => if p.1 = k then (p.1, f p.2) else p)

/-- The `_remove_job` helper: pop the job, pop the engine entry, and drop the
id from the owning user's list (a missing job skips the user-list update,
matching `self.jobs.pop(job_id, None)` returning None). -/
def removeJob (st : JMState) (jobId : String) : JMState :=
  match List.lookup jobId st.jobs with
  | none => { st with engines := eraseKey jobId st.engines }
  | some job =>
    { jobs := eraseKey jobId st.jobs
      engines := eraseKey jobId st.engines
      user_jobs := updateVal job.user_id (fun l => l.erase jobId) st.user_jobs }

/-- The eviction predicate of `cleanup_old_jobs`: terminal status and
`updated_at` strictly older than the cutoff. -/
def isStale (cutoff : Int) (j : ScrapeJob) : Bool :=
  isTerminal j.status && decide (j.updated_at < cutoff)

/-- The `cleanup_old_jobs` method: compute the cutoff (`now` minus
`max_age_hours` hours, in seconds), collect the ids of stale terminal jobs,
then remove each from all three tracking structures. -/
def cleanupOldJobs (st : JMState) (maxAgeHours : Nat) (now : Int) : JMState :=
  let cutoff := now - (maxAgeHours : Int) * 3600
  let jobsToRemove := (st.jobs.filter (fun p => isStale cutoff p.2)).map Prod.fst
  jobsToRemove.foldl removeJob st

/-! ## The result/error exclusivity invariant (claim C2's property) -/

/-- The per-job field invariant: result and error absent while the job is
pending or running, never both present, result only on completed jobs, error
only on failed jobs. -/
def jobInv (j : ScrapeJob) : Bool :=
  (if j.status = .pending ∨ j.status = .running
   then j.result.isNone && j.error.isNone else true)
  && !(j.result.isSome && j.error.isSome)
  && (if j.result.isSome then decide (j.status = .completed) else true)
  && (if j.error.isSome then decide (j.status = .failed) else true)

/-- True when an `Except` value is a success. -/
def isOkE : Except ε α → Bool
  | .ok _ => true
  | .error _ => false

/-- A concrete running job, used to exercise the engines on closed inputs. -/
def sampleRunningJob : ScrapeJob :=
  { job_id := "j1", status := .running, platform := "twitter",
    url := "https://x.com/u", user_id := "alice", created_at := 0,
    updated_at := 0 }

/-- A Bright Data engine state holding one running job with a snapshot id. -/
def sampleBDState : BDState :=
  { jobs := [("j1", sampleRunningJob)], snapshotMap := [("j1", "snap1")] }

/-- A Playwright engine state holding one running job (unreachable through
the synchronous engine itself, but a legal cache content for exercising the
result-retrieval guards). -/
def samplePWState : PWState :=
  { jobs := [("j1", sampleRunningJob)] }

/-- A concrete completed job with a stored result. -/
def sampleDoneJob : ScrapeJob :=
  { job_id := "j2", status := .completed, platform := "twitter",
    url := "https://x.com/v", user_id := "bob", created_at := 0,
    updated_at := 0, result := some {} }

/-- A Bright Data engine state holding one completed job. -/
def sampleDoneBDState : BDState :=
  { jobs := [("j2", sampleDoneJob)], snapshotMap := [] }

/-- A completed job whose last update is old (for exercising eviction). -/
def oldDoneJob : ScrapeJob :=
  { job_id := "a", status := .completed, platform := "twitter",
    url := "u1", user_id := "alice", created_at := 0, updated_at := 0,
    result := some {} }

/-- A running job whose last update is equally old (never evicted). -/
def oldRunningJob : ScrapeJob :=
  { job_id := "b", status := .running, platform := "threads",
    url := "u2", user_id := "alice", created_at := 0, updated_at := 0 }

/-- A completed job updated recently (kept by a 24-hour cleanup). -/
def newDoneJob : ScrapeJob :=
  { job_id := "c", status := .completed, platform := "linkedin",
    url := "u3", user_id := "bob", created_at := 0, updated_at := 324000,
    result := some {} }

/-- A job-manager registry holding the three jobs above. -/
def sampleJMState : JMState :=
  { jobs := [("a", oldDoneJob), ("b", oldRunningJob), ("c", newDoneJob)]
    engines := [("a", .brightdata), ("b", .playwright), ("c", .brightdata)]
    user_jobs := [("alice", ["a", "b"]), ("bob", ["c"])] }

/-!
## Theorems

First the dictionary lemmas, then one theorem per claim (with witnesses and
counterexamples where called for).
-/

theorem lookup_eraseKey_self (k : String) (l : List (String × α)) :
    List.lookup k (eraseKey k l) = none := by
  induction l with
  | nil => rfl
  | cons p t ih =>
    by_cases h : p.1 = k
    · simpa [eraseKey, h] using ih
    · simpa [eraseKey, List.lookup, beq_iff_eq, Ne.symm h] using ih

theorem lookup_eraseKey_ne (k x : String) (l : List (String × α)) (h : x ≠ k) :
    List.lookup x (eraseKey k l) = List.lookup x l := by
  induction l with
  | nil => rfl
  | cons p t ih =>
    rcases p with ⟨a, b⟩
    by_cases hp : a = k
    · have hdrop : eraseKey k ((a, b) :: t) = eraseKey k t := by
        simp [eraseKey, hp]
      have hx : (x == a) = false := by
        simp only [beq_eq_false_iff_ne]
        intro hxa
        exact h (hxa.trans hp)
      rw [hdrop, ih, List.lookup, hx]
    · have hkeep : eraseKey k ((a, b) :: t) = (a, b) :: eraseKey k t := by
        simp [eraseKey, hp]
      rw [hkeep]
      by_cases hxa : x = a
      · have hx : (x == a) = true := by simp [beq_iff_eq, hxa]
        rw [List.lookup, List.lookup, hx]
      · have hx : (x == a) = false := by simp [beq_iff_eq, hxa]
        rw [List.lookup, List.lookup, hx, ih]

theorem lookup_insertKey_self (k : String) (v : α) (l : List (String × α)) :
    List.lookup k (insertKey k v l) = some v := by
  simp [insertKey, List.lookup]

theorem lookup_insertKey_ne (k x : String) (v : α) (l : List (String × α)) (h : x ≠ k) :
    List.lookup x (insertKey k v l) = List.lookup x l := by
  have hx : (x == k) = false := by simp [beq_iff_eq, h]
  simp only [insertKey, List.lookup, hx]
  exact lookup_eraseKey_ne k x l h

theorem lookup_mem {l : List (String × α)} {k : String} {v : α}
    (h : List.lookup k l = some v) : (k, v) ∈ l := by
  induction l with
  | nil => simp [List.lookup] at h
  | cons p t ih =>
    rcases p with ⟨a, b⟩
    rw [List.lookup] at h
    by_cases hk : k = a
    · have hx : (k == a) = true := by simp [beq_iff_eq, hk]
      rw [hx] at h
      have hbv : b = v := by simpa using h
      subst hk
      subst hbv
      exact List.mem_cons_self _ _
    · have hx : (k == a) = false := by simp [beq_iff_eq, hk]
      rw [hx] at h
      exact List.mem_cons_of_mem _ (ih h)

/-- Claim C4, counterexample.  The claim asserts that a post whose standalone
numeric lines are exactly 204, 488, 55, 12 yields likes=488, comments=55,
reposts=12; the code instead assigns the 4th-, 3rd- and 2nd-from-end numbers,
giving likes=204, comments=488, reposts=55, as its own comment (likes,
comments, reposts, then shares/other) describes. -/
theorem c4_counterexample :
    ¬ (extractPostMetrics "204\n488\n55\n12" = (some 488, some 55, some 12)) := by
  decide

/-- Claim C4 (corrected): for a post text whose standalone numeric lines are
exactly 204, 488, 55, 12 in that order, the Threads metric-assignment
heuristic yields likes=204, comments=488, reposts=55 (the 4th-, 3rd- and
2nd-from-end numbers); for a text whose standalone numeric lines are exactly
488, 55, 12 it yields likes=488, comments=55, reposts=12. -/
theorem c4_metric_assignment (t₁ t₂ : String)
    (h₁ : extractNumbers t₁ = [204, 488, 55, 12])
    (h₂ : extractNumbers t₂ = [488, 55, 12]) :
    extractPostMetrics t₁ = (some 204, some 488, some 55) ∧
    extractPostMetrics t₂ = (some 488, some 55, some 12) := by
  constructor
  · rw [extractPostMetrics, h₁]
    decide
  · rw [extractPostMetrics, h₂]
    decide

/-- Witness for C4 on concrete post texts (one with surrounding prose lines,
one purely numeric). -/
theorem c4_witness :
    extractPostMetrics "some post body\n204\n488\n55\n12" = (some 204, some 488, some 55) ∧
    extractPostMetrics "488\n55\n12" = (some 488, some 55, some 12) :=
  c4_metric_assignment "some post body\n204\n488\n55\n12" "488\n55\n12"
    (by decide) (by decide)

/-- Claim C5, counterexample.  The claim says any post limit that is neither
absent nor at least 500 nor in [50,500) maps to a 7-day window; but a post
limit of 0 is falsy in Python, so `not post_limit` routes it to the 365-day
window. -/
theorem c5_counterexample :
    ¬ ((convertLimitToDates (some 0) 0).2 - (convertLimitToDates (some 0) 0).1
        = 7 * 86400) := by
  decide

/-- Claim C5 (corrected): the date window ends at now and its length is 365
days when the post limit is absent, zero, or at least 500; 90 days for
[100,500); 30 days for [50,100); and 7 days for any other (nonzero, below 50)
value. -/
theorem c5_date_range (pl : Option Int) (now : Int) :
    (convertLimitToDates pl now).2 = now ∧
    (pl = none →
      (convertLimitToDates pl now).2 - (convertLimitToDates pl now).1 = 365 * 86400) ∧
    (∀ n : Int, pl = some n →
      ((n = 0 ∨ 500 ≤ n) →
        (convertLimitToDates pl now).2 - (convertLimitToDates pl now).1 = 365 * 86400) ∧
      (100 ≤ n → n < 500 →
        (convertLimitToDates pl now).2 - (convertLimitToDates pl now).1 = 90 * 86400) ∧
      (50 ≤ n → n < 100 →
        (convertLimitToDates pl now).2 - (convertLimitToDates pl now).1 = 30 * 86400) ∧
      (n ≠ 0 → n < 50 →
        (convertLimitToDates pl now).2 - (convertLimitToDates pl now).1 = 7 * 86400)) := by
  refine ⟨by cases pl <;> simp [convertLimitToDates], ?_, ?_⟩
  · rintro rfl
    simp [convertLimitToDates]
  · rintro n rfl
    refine ⟨?_, ?_, ?_, ?_⟩ <;> intro h1 <;> try intro h2
    all_goals
      simp only [convertLimitToDates]
      split_ifs <;> omega

/-- Witness for C5 at the post limits named by the spec plus the corrected
zero case. -/
theorem c5_witness :
    (convertLimitToDates none 3000).2 - (convertLimitToDates none 3000).1 = 365 * 86400 ∧
    (convertLimitToDates (some 500) 3000).2 - (convertLimitToDates (some 500) 3000).1 = 365 * 86400 ∧
    (convertLimitToDates (some 100) 3000).2 - (convertLimitToDates (some 100) 3000).1 = 90 * 86400 ∧
    (convertLimitToDates (some 50) 3000).2 - (convertLimitToDates (some 50) 3000).1 = 30 * 86400 ∧
    (convertLimitToDates (some 10) 3000).2 - (convertLimitToDates (some 10) 3000).1 = 7 * 86400 ∧
    (convertLimitToDates (some 0) 3000).2 - (convertLimitToDates (some 0) 3000).1 = 365 * 86400 :=
  ⟨(c5_date_range none 3000).2.1 rfl,
   ((c5_date_range (some 500) 3000).2.2 500 rfl).1 (Or.inr (by norm_num)),
   ((c5_date_range (some 100) 3000).2.2 100 rfl).2.1 (by norm_num) (by norm_num),
   ((c5_date_range (some 50) 3000).2.2 50 rfl).2.2.1 (by norm_num) (by norm_num),
   ((c5_date_range (some 10) 3000).2.2 10 rfl).2.2.2 (by norm_num) (by norm_num),
   ((c5_date_range (some 0) 3000).2.2 0 rfl).1 (Or.inl rfl)⟩

/-- Claim C10: for any platform whose lowercased name is neither twitter nor
linkedin, the Bright Data engine's initialization returns (never raises) a
failed job whose error text names the platform and lists the supported
platforms, no provider submission is attempted, and the failed job is stored. -/
theorem c10_unsupported_platform (s : BDState) (url userId platform : String)
    (pl : Option Int) (submit : SubmitOutcome) (jid : String) (now now2 : Int)
    (h1 : lowerStr platform ≠ "twitter") (h2 : lowerStr platform ≠ "linkedin") :
    (bdInitScrape s url userId platform pl submit jid now now2).1.status = .failed ∧
    (bdInitScrape s url userId platform pl submit jid now now2).1.error
      = some (unsupportedMsg platform) ∧
    (bdInitScrape s url userId platform pl submit jid now now2).2.2 = false ∧
    List.lookup jid (bdInitScrape s url userId platform pl submit jid now now2).2.1.jobs
      = some (bdInitScrape s url userId platform pl submit jid now now2).1 := by
  have hd : datasetIdFor (lowerStr platform) = none := by
    simp [datasetIdFor, h1, h2]
  refine ⟨?_, ?_, ?_, ?_⟩ <;>
    simp [bdInitScrape, hd, lookup_insertKey_self]

/-- Witness for C10 with the platform name Threads. -/
theorem c10_witness :
    (bdInitScrape bdEmpty "https://threads.net/u" "alice" "Threads" none
        (.accepted "snap") "j9" 0 1).1.status = .failed ∧
    (bdInitScrape bdEmpty "https://threads.net/u" "alice" "Threads" none
        (.accepted "snap") "j9" 0 1).1.error = some (unsupportedMsg "Threads") ∧
    (bdInitScrape bdEmpty "https://threads.net/u" "alice" "Threads" none
        (.accepted "snap") "j9" 0 1).2.2 = false ∧
    List.lookup "j9" (bdInitScrape bdEmpty "https://threads.net/u" "alice" "Threads" none
        (.accepted "snap") "j9" 0 1).2.1.jobs
      = some (bdInitScrape bdEmpty "https://threads.net/u" "alice" "Threads" none
        (.accepted "snap") "j9" 0 1).1 :=
  c10_unsupported_platform bdEmpty "https://threads.net/u" "alice" "Threads" none
    (.accepted "snap") "j9" 0 1 (by decide) (by decide)

/-- Claim C6: with a post limit of 5 against a page whose selector match
count is 20 from the first iteration on, the scroll loop stops after exactly
one iteration (the first one, whose count 20 already meets the limit), and
the result built by the scrape body carries exactly 5 items after
truncation. -/
theorem c6_post_limit_truncation (extracted : List Item)
    (hlen : extracted.length = 20) (url userId platform sel : String)
    (now elapsed : Int) :
    (scrollAndLoad (fun _ => 20) (some 5) (fun _ => false) 500).2 = 1 ∧
    limitStop (some 5) ((fun _ => 20) 0) = true ∧
    ∃ r, pwExecuteScrape url userId platform (some 5) none
        (.found sel (fun _ => 20) (fun _ => false) extracted) now elapsed = .ok r ∧
      r.items.length = 5 ∧ r.total_items = 5 := by
  refine ⟨by decide, by decide, ?_⟩
  refine ⟨_, rfl, ?_, ?_⟩ <;>
    simp [pwExecuteScrape, applyPostLimit, hlen]

/-- Witness for C6 with twenty identical placeholder items. -/
theorem c6_witness :
    (List.replicate 20 ({} : Item)).length = 20 ∧
    ∃ r, pwExecuteScrape "https://threads.net/u" "alice" "threads" (some 5) none
        (.found "article" (fun _ => 20) (fun _ => false) (List.replicate 20 {})) 0 3
        = .ok r ∧ r.items.length = 5 ∧ r.total_items = 5 :=
  ⟨by decide,
   (c6_post_limit_truncation (List.replicate 20 {}) (by decide)
     "https://threads.net/u" "alice" "threads" "article" 0 3).2.2⟩

theorem scrollAux_le_fuel (counts : Nat → Nat) (postLimit : Option Nat)
    (timeStop : Nat → Bool) :
    ∀ fuel i last, (scrollAux counts postLimit timeStop fuel i last).2 ≤ fuel := by
  intro fuel
  induction fuel with
  | zero => intro i last; simp [scrollAux]
  | succ n ih =>
    intro i last
    simp only [scrollAux]
    split
    · simp
    · split
      · simp
      · simpa using Nat.succ_le_succ (ih (i + 1) (counts i))

theorem scrollAux_stable_at (counts : Nat → Nat) (postLimit : Option Nat)
    (timeStop : Nat → Bool) (k : Nat) (hk : counts (k + 1) = counts k) :
    ∀ fuel, (scrollAux counts postLimit timeStop fuel (k + 1) (counts k)).2 ≤ 1 := by
  intro fuel
  cases fuel with
  | zero => simp [scrollAux]
  | succ n =>
    simp only [scrollAux]
    split
    · simp
    · simp [hk]

theorem scrollAux_stable (counts : Nat → Nat) (postLimit : Option Nat)
    (timeStop : Nat → Bool) (k : Nat) (hk : counts (k + 1) = counts k) :
    ∀ fuel i last, i ≤ k →
      (scrollAux counts postLimit timeStop fuel i last).2 ≤ k + 2 - i := by
  intro fuel
  induction fuel with
  | zero => intro i last _; simp [scrollAux]
  | succ n ih =>
    intro i last hi
    simp only [scrollAux]
    split
    · simp
      omega
    · split
      · simp
        omega
      · by_cases hik : i = k
        · subst hik
          have hrec := scrollAux_stable_at counts postLimit timeStop i hk n
          simp only []
          omega
        · have hi2 : i + 1 ≤ k := by omega
          have hrec := ih (i + 1) (counts i) hi2
          simp only []
          omega

/-- Claim C7: for every per-iteration count sequence, post limit and
time-budget behavior, the scroll loop of the synchronous engine performs at
most the configured scroll ceiling many iterations, and it stops within one
extra iteration after the match count stops increasing (if the count at
iteration k+1 equals the count at iteration k, at most k+2 iterations run). -/
theorem c7_scroll_terminates (counts : Nat → Nat) (postLimit : Option Nat)
    (timeStop : Nat → Bool) (maxScrolls : Nat) :
    (scrollAndLoad counts postLimit timeStop maxScrolls).2 ≤ maxScrolls ∧
    (∀ k, counts (k + 1) = counts k →
      (scrollAndLoad counts postLimit timeStop maxScrolls).2 ≤ k + 2) := by
  constructor
  · exact scrollAux_le_fuel counts postLimit timeStop maxScrolls 0 0
  · intro k hk
    have h := scrollAux_stable counts postLimit timeStop k hk maxScrolls 0 0 (Nat.zero_le k)
    simpa [scrollAndLoad] using h

/-- Witness for C7: a page stuck at seven matches stops after at most two
iterations of the default 500-iteration budget. -/
theorem c7_witness :
    (scrollAndLoad (fun _ => 7) none (fun _ => false) 500).2 ≤ 500 ∧
    (scrollAndLoad (fun _ => 7) none (fun _ => false) 500).2 ≤ 0 + 2 :=
  ⟨(c7_scroll_terminates (fun _ => 7) none (fun _ => false) 500).1,
   (c7_scroll_terminates (fun _ => 7) none (fun _ => false) 500).2 0 rfl⟩

/-- Claim C3: for every job id known to the Bright Data engine, `get_status`
returns a job for every possible poll outcome (it never propagates the
provider call's exception), and when the poll raises on a non-terminal job
with a stored snapshot id, the returned job is failed with the exception
text recorded in its error field. -/
theorem c3_poll_never_raises (s : BDState) (id : String) (resp : PollResponse)
    (now : Int) (j : ScrapeJob) (hj : List.lookup id s.jobs = some j) :
    (∃ j' s', bdGetStatus s id resp now = .ok (j', s')) ∧
    (∀ m, isTerminal j.status = false →
      (List.lookup id s.snapshotMap).isSome = true → resp = .exn m →
      ∃ s', bdGetStatus s id resp now =
        .ok ({ j with
               status := .failed
               error := some ("Error checking status: " ++ m)
               updated_at := now }, s')) := by
  constructor
  · rw [bdGetStatus, hj]
    by_cases ht : isTerminal j.status
    · exact ⟨j, s, by simp [ht]⟩
    · exact ⟨bdPollUpdate j (List.lookup id s.snapshotMap).isSome resp now,
        ⟨insertKey id (bdPollUpdate j (List.lookup id s.snapshotMap).isSome resp now)
          s.jobs, s.snapshotMap⟩,
        by simp [ht]⟩
  · rintro m hnt hsnap rfl
    rw [bdGetStatus, hj]
    refine ⟨⟨insertKey id
      (bdPollUpdate j (List.lookup id s.snapshotMap).isSome (.exn m) now)
      s.jobs, s.snapshotMap⟩, ?_⟩
    simp [hnt, bdPollUpdate, hsnap]

/-- Witness for C3 on the sample state: a transport exception during the poll
of a running job yields a failed job carrying the exception text. -/
theorem c3_witness :
    ∃ s', bdGetStatus sampleBDState "j1" (.exn "connection reset") 9 =
      .ok ({ sampleRunningJob with
             status := .failed
             error := some ("Error checking status: " ++ "connection reset")
             updated_at := 9 }, s') :=
  (c3_poll_never_raises sampleBDState "j1" (.exn "connection reset") 9
      sampleRunningJob (by decide)).2 "connection reset" (by decide) (by decide) rfl

/-- Claim C9, counterexample.  The claim says a known job whose status is not
completed at the time of the call always fails result retrieval; but the
Bright Data engine's `get_results` first refreshes the job via `get_status`,
so a job that is running when the call starts can complete during the refresh
and return results. -/
theorem c9_counterexample :
    sampleRunningJob.status ≠ .completed ∧
    List.lookup "j1" sampleBDState.jobs = some sampleRunningJob ∧
    isOkE (bdGetResults sampleBDState "j1" (.okList []) 5) = true := by
  refine ⟨by decide, by decide, by decide⟩

/-- Claim C9 (corrected): result retrieval fails with a not-ready error
carrying the job's current status whenever the status as of the check is not
completed — for the synchronous engine that is the cached status, for the
asynchronous engine the status after the refresh performed inside
`get_results`; an unknown job id fails with a not-found error on both
engines. -/
theorem c9_get_results_guard :
    (∀ (s : PWState) (id : String),
      (List.lookup id s.jobs = none → pwGetResults s id = .error (.notFound id)) ∧
      (∀ j, List.lookup id s.jobs = some j → j.status ≠ .completed →
        pwGetResults s id = .error (.notReady id j.status none))) ∧
    (∀ (s : BDState) (id : String) (resp : PollResponse) (now : Int),
      (List.lookup id s.jobs = none →
        bdGetResults s id resp now = .error (.notFound id)) ∧
      (∀ j' s', bdGetStatus s id resp now = .ok (j', s') → j'.status ≠ .completed →
        bdGetResults s id resp now = .error (.notReady id j'.status j'.progress))) := by
  constructor
  · intro s id
    constructor
    · intro h
      simp [pwGetResults, pwGetStatus, h]
    · intro j hj hne
      simp [pwGetResults, pwGetStatus, hj, hne]
  · intro s id resp now
    constructor
    · intro h
      simp [bdGetResults, bdGetStatus, h]
    · intro j' s' hok hne
      simp [bdGetResults, hok, hne]

/-- Witness for C9: a still-running poll on the sample Bright Data state and
a running cached job on the sample Playwright state both yield not-ready
errors carrying the running status; an unknown id yields not-found. -/
theorem c9_witness :
    pwGetResults samplePWState "j1" = .error (.notReady "j1" .running none) ∧
    pwGetResults samplePWState "nope" = .error (.notFound "nope") ∧
    bdGetResults sampleBDState "j1" (.okRunning none) 7
      = .error (.notReady "j1" .running
          (some { message := some "Scraping in progress..." })) ∧
    bdGetResults sampleBDState "nope" (.okRunning none) 7
      = .error (.notFound "nope") := by
  refine ⟨?_, ?_, ?_, ?_⟩
  · exact (c9_get_results_guard.1 samplePWState "j1").2 sampleRunningJob
      (by decide) (by decide)
  · exact (c9_get_results_guard.1 samplePWState "nope").1 (by decide)
  · exact (c9_get_results_guard.2 sampleBDState "j1" (.okRunning none) 7).2
      ({ sampleRunningJob with
         progress := some { message := some "Scraping in progress..." }
         updated_at := 7 })
      ({ jobs := insertKey "j1"
           ({ sampleRunningJob with
              progress := some { message := some "Scraping in progress..." }
              updated_at := 7 }) sampleBDState.jobs
         snapshotMap := sampleBDState.snapshotMap })
      (by rfl) (by decide)
  · exact (c9_get_results_guard.2 sampleBDState "nope" (.okRunning none) 7).1 (by decide)

theorem bdPollUpdate_status (job : ScrapeJob) (hasSnap : Bool)
    (resp : PollResponse) (now : Int) :
    (bdPollUpdate job hasSnap resp now).status = job.status ∨
    isTerminal (bdPollUpdate job hasSnap resp now).status = true := by
  cases hs : hasSnap with
  | false => right; simp [bdPollUpdate, isTerminal]
  | true =>
    cases resp with
    | status202 body => left; simp [bdPollUpdate]
    | status404 => left; simp [bdPollUpdate]
    | httpErr code text => right; simp [bdPollUpdate, isTerminal]
    | okRunning msg => left; simp [bdPollUpdate]
    | okOther => left; simp [bdPollUpdate]
    | exn msg => right; simp [bdPollUpdate, isTerminal]
    | okList records =>
      cases hh : records.head? with
      | none => right; simp [bdPollUpdate, hh, isTerminal]
      | some r =>
        by_cases he : r.err_marker.isSome = true
        · right; simp [bdPollUpdate, hh, he, isTerminal]
        · right; simp [bdPollUpdate, hh, he, isTerminal]

theorem rank_le_of_status_cases (j j' : ScrapeJob)
    (hnt : isTerminal j.status = false)
    (h : j'.status = j.status ∨ isTerminal j'.status = true) :
    statusRank j.status ≤ statusRank j'.status := by
  rcases h with h | h
  · rw [h]
  · cases hs : j.status <;> cases hs' : j'.status <;>
      simp_all [isTerminal, statusRank]

theorem bdInitScrape_jobs (s : BDState) (url userId platform : String)
    (pl : Option Int) (submit : SubmitOutcome) (jid : String) (now now2 : Int) :
    (bdInitScrape s url userId platform pl submit jid now now2).2.1.jobs
      = insertKey jid (bdInitScrape s url userId platform pl submit jid now now2).1
          s.jobs := by
  rw [bdInitScrape.eq_def]
  split
  · rfl
  · cases submit <;> rfl

theorem bdInitScrape_status (s : BDState) (url userId platform : String)
    (pl : Option Int) (submit : SubmitOutcome) (jid : String) (now now2 : Int) :
    (bdInitScrape s url userId platform pl submit jid now now2).1.status = .running ∨
    (bdInitScrape s url userId platform pl submit jid now now2).1.status = .failed := by
  rw [bdInitScrape.eq_def]
  split
  · right; rfl
  · cases submit with
    | accepted snapId => left; rfl
    | exn m => right; rfl
    | httpErr c t => right; rfl
    | noSnapshot b => right; rfl

theorem bdApply_lookup (s : BDState) (op : BDOp) (id : String) (j : ScrapeJob)
    (hfresh : bdOpFreshOk s op = true)
    (hj : List.lookup id s.jobs = some j) :
    ∃ j', List.lookup id (bdApply s op).jobs = some j' ∧
      statusRank j.status ≤ statusRank j'.status ∧
      (isTerminal j.status = true → j' = j) := by
  cases op with
  | start url userId platform pl submit jid now now2 =>
    have hne : id ≠ jid := by
      intro h
      subst h
      have h' : (List.lookup id s.jobs).isNone = true := hfresh
      rw [hj] at h'
      simp at h'
    refine ⟨j, ?_, le_refl _, fun _ => rfl⟩
    show List.lookup id
      (bdInitScrape s url userId platform pl submit jid now now2).2.1.jobs = some j
    rw [bdInitScrape_jobs, lookup_insertKey_ne _ _ _ _ hne]
    exact hj
  | poll jid resp now =>
    cases hjy : List.lookup jid s.jobs with
    | none =>
      refine ⟨j, ?_, le_refl _, fun _ => rfl⟩
      simp only [bdApply, bdGetStatus, hjy]
      exact hj
    | some jb =>
      by_cases ht : isTerminal jb.status = true
      · refine ⟨j, ?_, le_refl _, fun _ => rfl⟩
        simp only [bdApply, bdGetStatus, hjy, ht, if_true]
        exact hj
      · by_cases hid : id = jid
        · subst hid
          have hjb : jb = j := by
            rw [hj] at hjy
            exact (Option.some_injective _ hjy).symm
          subst hjb
          refine ⟨bdPollUpdate jb (List.lookup id s.snapshotMap).isSome resp now,
            ?_, ?_, ?_⟩
          · simp only [bdApply, bdGetStatus, hjy, if_neg ht]
            exact lookup_insertKey_self _ _ _
          · exact rank_le_of_status_cases jb _ (Bool.eq_false_iff.mpr ht)
              (bdPollUpdate_status jb _ resp now)
          · intro hterm
            exact absurd hterm ht
        · refine ⟨j, ?_, le_refl _, fun _ => rfl⟩
          simp only [bdApply, bdGetStatus, hjy, if_neg ht]
          rw [lookup_insertKey_ne _ _ _ _ hid]
          exact hj
  | cancel jid now =>
    cases hjy : List.lookup jid s.jobs with
    | none =>
      refine ⟨j, ?_, le_refl _, fun _ => rfl⟩
      simp only [bdApply, bdCancel, hjy]
      exact hj
    | some jb =>
      by_cases ht : isTerminal jb.status = true
      · refine ⟨j, ?_, le_refl _, fun _ => rfl⟩
        simp only [bdApply, bdCancel, hjy, ht, if_true]
        exact hj
      · by_cases hid : id = jid
        · subst hid
          have hjb : jb = j := by
            rw [hj] at hjy
            exact (Option.some_injective _ hjy).symm
          subst hjb
          refine ⟨{ jb with
            status := .failed
            error := some "Job cancelled by user"
            updated_at := now }, ?_, ?_, ?_⟩
          · simp only [bdApply, bdCancel, hjy, if_neg ht]
            exact lookup_insertKey_self _ _ _
          · exact rank_le_of_status_cases jb _ (Bool.eq_false_iff.mpr ht)
              (Or.inr rfl)
          · intro hterm
            exact absurd hterm ht
        · refine ⟨j, ?_, le_refl _, fun _ => rfl⟩
          simp only [bdApply, bdCancel, hjy, if_neg ht]
          rw [lookup_insertKey_ne _ _ _ _ hid]
          exact hj

theorem bdRun_lookup (ops : List BDOp) :
    ∀ (s : BDState) (id : String) (j : ScrapeJob),
      bdFresh s ops = true → List.lookup id s.jobs = some j →
      ∃ j', List.lookup id (bdRun s ops).jobs = some j' ∧
        statusRank j.status ≤ statusRank j'.status ∧
        (isTerminal j.status = true → j' = j) := by
  induction ops with
  | nil => exact fun s id j _ hj => ⟨j, hj, le_refl _, fun _ => rfl⟩
  | cons op rest ih =>
    intro s id j hfresh hj
    rw [bdFresh] at hfresh
    rw [Bool.and_eq_true] at hfresh
    obtain ⟨h1, h2⟩ := hfresh
    obtain ⟨j₁, hj₁, hrank₁, hterm₁⟩ := bdApply_lookup s op id j h1 hj
    obtain ⟨j', hj', hrank₂, hterm₂⟩ := ih (bdApply s op) id j₁ h2 hj₁
    refine ⟨j', ?_, le_trans hrank₁ hrank₂, ?_⟩
    · simpa [bdRun, List.foldl] using hj'
    · intro ht
      have e1 : j₁ = j := hterm₁ ht
      subst e1
      exact hterm₂ ht

theorem pwInitScrape_jobs (s : PWState) (url userId platform : String)
    (pl tl : Option Nat) (outcome : ExecOutcome) (jid : String)
    (now now2 elapsed : Int) :
    (pwInitScrape s url userId platform pl tl outcome jid now now2 elapsed).2.jobs
      = insertKey jid
          (pwInitScrape s url userId platform pl tl outcome jid now now2 elapsed).1
          s.jobs := by
  rw [pwInitScrape]

theorem pwInitScrape_status (s : PWState) (url userId platform : String)
    (pl tl : Option Nat) (outcome : ExecOutcome) (jid : String)
    (now now2 elapsed : Int) :
    (pwInitScrape s url userId platform pl tl outcome jid now now2 elapsed).1.status
        = .completed ∨
    (pwInitScrape s url userId platform pl tl outcome jid now now2 elapsed).1.status
        = .failed := by
  rw [pwInitScrape]
  cases pwExecuteScrape url userId platform pl tl outcome now2 elapsed with
  | ok r => left; rfl
  | error e => right; rfl

theorem pwApply_lookup (s : PWState) (op : PWOp) (id : String) (j : ScrapeJob)
    (hfresh : pwOpFreshOk s op = true)
    (hj : List.lookup id s.jobs = some j) :
    ∃ j', List.lookup id (pwApply s op).jobs = some j' ∧
      statusRank j.status ≤ statusRank j'.status ∧
      (isTerminal j.status = true → j' = j) := by
  cases op with
  | start url userId platform pl tl outcome jid now now2 elapsed =>
    have hne : id ≠ jid := by
      intro h
      subst h
      have h' : (List.lookup id s.jobs).isNone = true := hfresh
      rw [hj] at h'
      simp at h'
    refine ⟨j, ?_, le_refl _, fun _ => rfl⟩
    show List.lookup id
      (pwInitScrape s url userId platform pl tl outcome jid now now2 elapsed).2.jobs
        = some j
    rw [pwInitScrape_jobs, lookup_insertKey_ne _ _ _ _ hne]
    exact hj
  | status jid => exact ⟨j, hj, le_refl _, fun _ => rfl⟩
  | cancel jid => exact ⟨j, hj, le_refl _, fun _ => rfl⟩
  | results jid => exact ⟨j, hj, le_refl _, fun _ => rfl⟩

theorem pwRun_lookup (ops : List PWOp) :
    ∀ (s : PWState) (id : String) (j : ScrapeJob),
      pwFresh s ops = true → List.lookup id s.jobs = some j →
      ∃ j', List.lookup id (pwRun s ops).jobs = some j' ∧
        statusRank j.status ≤ statusRank j'.status ∧
        (isTerminal j.status = true → j' = j) := by
  induction ops with
  | nil => exact fun s id j _ hj => ⟨j, hj, le_refl _, fun _ => rfl⟩
  | cons op rest ih =>
    intro s id j hfresh hj
    rw [pwFresh] at hfresh
    rw [Bool.and_eq_true] at hfresh
    obtain ⟨h1, h2⟩ := hfresh
    obtain ⟨j₁, hj₁, hrank₁, hterm₁⟩ := pwApply_lookup s op id j h1 hj
    obtain ⟨j', hj', hrank₂, hterm₂⟩ := ih (pwApply s op) id j₁ h2 hj₁
    refine ⟨j', ?_, le_trans hrank₁ hrank₂, ?_⟩
    · simpa [pwRun, List.foldl] using hj'
    · intro ht
      have e1 : j₁ = j := hterm₁ ht
      subst e1
      exact hterm₂ ht

/-- Claim C1: along any sequence of engine operations with fresh job ids, a
job's status only moves forward in rank along pending, running, terminal, and
a terminal job is never changed again; the async engine creates jobs at
pending and leaves its initialization with status running or failed (a
submission failure jumps pending to failed); the sync engine creates jobs at
running and leaves its initialization terminal; on a terminal job the async
engine's status check returns the cached job with no state change and its
cancellation is a no-op returning false, and the sync engine's cancellation
always returns false. -/
theorem c1_status_machine :
    (∀ (s : BDState) (ops : List BDOp) (id : String) (j j' : ScrapeJob),
      bdFresh s ops = true →
      List.lookup id s.jobs = some j →
      List.lookup id (bdRun s ops).jobs = some j' →
      statusRank j.status ≤ statusRank j'.status ∧
        (isTerminal j.status = true → j' = j)) ∧
    (∀ (s : PWState) (ops : List PWOp) (id : String) (j j' : ScrapeJob),
      pwFresh s ops = true →
      List.lookup id s.jobs = some j →
      List.lookup id (pwRun s ops).jobs = some j' →
      statusRank j.status ≤ statusRank j'.status ∧
        (isTerminal j.status = true → j' = j)) ∧
    (∀ jid platform url userId now,
      (bdInitJob jid platform url userId now).status = .pending) ∧
    (∀ (s : BDState) url userId platform pl submit jid now now2,
      (bdInitScrape s url userId platform pl submit jid now now2).1.status
          = .running ∨
      (bdInitScrape s url userId platform pl submit jid now now2).1.status
          = .failed) ∧
    (∀ jid platform url userId now,
      (pwInitJob jid platform url userId now).status = .running) ∧
    (∀ (s : PWState) url userId platform pl tl outcome jid now now2 elapsed,
      (pwInitScrape s url userId platform pl tl outcome jid now now2 elapsed).1.status
          = .completed ∨
      (pwInitScrape s url userId platform pl tl outcome jid now now2 elapsed).1.status
          = .failed) ∧
    (∀ (s : BDState) (id : String) (resp : PollResponse) (now : Int)
        (j : ScrapeJob), List.lookup id s.jobs = some j →
      isTerminal j.status = true → bdGetStatus s id resp now = .ok (j, s)) ∧
    (∀ (s : BDState) (id : String) (now : Int) (j : ScrapeJob),
      List.lookup id s.jobs = some j →
      isTerminal j.status = true → bdCancel s id now = (false, s)) ∧
    (∀ (s : PWState) (jid : String), pwCancel s jid = false) := by
  refine ⟨?_, ?_, ?_, ?_, ?_, ?_, ?_, ?_, ?_⟩
  · intro s ops id j j' hfresh hj hj'
    obtain ⟨j₁, hj₁, hrank, hterm⟩ := bdRun_lookup ops s id j hfresh hj
    rw [hj'] at hj₁
    have e : j' = j₁ := Option.some_injective _ hj₁
    subst e
    exact ⟨hrank, hterm⟩
  · intro s ops id j j' hfresh hj hj'
    obtain ⟨j₁, hj₁, hrank, hterm⟩ := pwRun_lookup ops s id j hfresh hj
    rw [hj'] at hj₁
    have e : j' = j₁ := Option.some_injective _ hj₁
    subst e
    exact ⟨hrank, hterm⟩
  · intro jid platform url userId now
    rfl
  · intro s url userId platform pl submit jid now now2
    exact bdInitScrape_status s url userId platform pl submit jid now now2
  · intro jid platform url userId now
    rfl
  · intro s url userId platform pl tl outcome jid now now2 elapsed
    exact pwInitScrape_status s url userId platform pl tl outcome jid now now2 elapsed
  · intro s id resp now j hj ht
    rw [bdGetStatus, hj]
    simp [ht]
  · intro s id now j hj ht
    rw [bdCancel, hj]
    simp [ht]
  · intro s jid
    rfl

/-- Witness for C1: cancelling the sample running job moves it forward to
failed; a status read on the sample Playwright state leaves its running job
untouched; the completed sample job is returned from cache and its
cancellation reports false without state change. -/
theorem c1_witness :
    (statusRank sampleRunningJob.status ≤ statusRank ({ sampleRunningJob with
        status := .failed
        error := some "Job cancelled by user"
        updated_at := 2 } : ScrapeJob).status ∧
      (isTerminal sampleRunningJob.status = true →
        ({ sampleRunningJob with
           status := .failed
           error := some "Job cancelled by user"
           updated_at := 2 } : ScrapeJob) = sampleRunningJob)) ∧
    (statusRank sampleRunningJob.status ≤ statusRank sampleRunningJob.status ∧
      (isTerminal sampleRunningJob.status = true →
        sampleRunningJob = sampleRunningJob)) ∧
    bdGetStatus sampleDoneBDState "j2" .status404 3
      = .ok (sampleDoneJob, sampleDoneBDState) ∧
    bdCancel sampleDoneBDState "j2" 3 = (false, sampleDoneBDState) :=
  ⟨c1_status_machine.1 sampleBDState [.cancel "j1" 2] "j1" sampleRunningJob
      ({ sampleRunningJob with
         status := .failed
         error := some "Job cancelled by user"
         updated_at := 2 }) (by decide) (by decide) (by decide),
   c1_status_machine.2.1 samplePWState [.status "j1"] "j1" sampleRunningJob
      sampleRunningJob (by decide) (by decide) (by decide),
   c1_status_machine.2.2.2.2.2.2.1 sampleDoneBDState "j2" .status404 3
      sampleDoneJob (by decide) (by decide),
   c1_status_machine.2.2.2.2.2.2.2.1 sampleDoneBDState "j2" 3
      sampleDoneJob (by decide) (by decide)⟩

theorem jobInv_fields (j : ScrapeJob) (hinv : jobInv j = true)
    (hnt : isTerminal j.status = false) :
    j.result = none ∧ j.error = none := by
  simp only [jobInv, Bool.and_eq_true] at hinv
  obtain ⟨⟨⟨h1, _⟩, _⟩, _⟩ := hinv
  cases hs : j.status with
  | pending =>
    rw [hs] at h1
    simp at h1
    exact ⟨h1.1, h1.2⟩
  | running =>
    rw [hs] at h1
    simp at h1
    exact ⟨h1.1, h1.2⟩
  | completed => rw [hs] at hnt; simp [isTerminal] at hnt
  | failed => rw [hs] at hnt; simp [isTerminal] at hnt

theorem jobInv_of_none (j : ScrapeJob) (hres : j.result = none)
    (herr : j.error = none) : jobInv j = true := by
  simp [jobInv, hres, herr]

theorem jobInv_failed (j : ScrapeJob) (hs : j.status = .failed)
    (hres : j.result = none) : jobInv j = true := by
  simp [jobInv, hs, hres]

theorem jobInv_completed (j : ScrapeJob) (hs : j.status = .completed)
    (herr : j.error = none) : jobInv j = true := by
  simp [jobInv, hs, herr]

theorem bdPollUpdate_inv (job : ScrapeJob) (hasSnap : Bool) (resp : PollResponse)
    (now : Int) (hinv : jobInv job = true) (hnt : isTerminal job.status = false) :
    jobInv (bdPollUpdate job hasSnap resp now) = true := by
  obtain ⟨hres, herr⟩ := jobInv_fields job hinv hnt
  cases hs : hasSnap with
  | false =>
    apply jobInv_failed <;> simp [bdPollUpdate, hres]
  | true =>
    cases resp with
    | status202 body => apply jobInv_of_none <;> simp [bdPollUpdate, hres, herr]
    | status404 => apply jobInv_of_none <;> simp [bdPollUpdate, hres, herr]
    | httpErr code text => apply jobInv_failed <;> simp [bdPollUpdate, hres]
    | okRunning msg => apply jobInv_of_none <;> simp [bdPollUpdate, hres, herr]
    | okOther => simpa [bdPollUpdate] using hinv
    | exn msg => apply jobInv_failed <;> simp [bdPollUpdate, hres]
    | okList records =>
      cases hh : records.head? with
      | none => apply jobInv_completed <;> simp [bdPollUpdate, hh, herr]
      | some r =>
        by_cases he : r.err_marker.isSome = true
        · apply jobInv_failed <;> simp [bdPollUpdate, hh, he, hres]
        · apply jobInv_completed <;> simp [bdPollUpdate, hh, he, herr]

theorem mem_insertKey {p : String × α} {k : String} {v : α} {l : List (String × α)}
    (h : p ∈ insertKey k v l) : p = (k, v) ∨ p ∈ l := by
  rcases List.mem_cons.mp h with h | h
  · exact Or.inl h
  · exact Or.inr (List.mem_of_mem_filter h)

theorem bdInitScrape_inv (s : BDState) (url userId platform : String)
    (pl : Option Int) (submit : SubmitOutcome) (jid : String) (now now2 : Int) :
    jobInv (bdInitScrape s url userId platform pl submit jid now now2).1 = true := by
  rw [bdInitScrape.eq_def]
  split
  · apply jobInv_failed <;> rfl
  · cases submit with
    | accepted snapId => apply jobInv_of_none <;> rfl
    | exn m => apply jobInv_failed <;> rfl
    | httpErr c t => apply jobInv_failed <;> rfl
    | noSnapshot b => apply jobInv_failed <;> rfl

theorem pwInitScrape_inv (s : PWState) (url userId platform : String)
    (pl tl : Option Nat) (outcome : ExecOutcome) (jid : String)
    (now now2 elapsed : Int) :
    jobInv (pwInitScrape s url userId platform pl tl outcome jid now now2 elapsed).1
      = true := by
  rw [pwInitScrape]
  cases pwExecuteScrape url userId platform pl tl outcome now2 elapsed with
  | ok r => apply jobInv_completed <;> rfl
  | error e => apply jobInv_failed <;> rfl

theorem bdApply_inv (s : BDState) (op : BDOp)
    (hs : ∀ p ∈ s.jobs, jobInv p.2 = true) :
    ∀ p ∈ (bdApply s op).jobs, jobInv p.2 = true := by
  cases op with
  | start url userId platform pl submit jid now now2 =>
    intro p hp
    rw [show (bdApply s (.start url userId platform pl submit jid now now2)).jobs
        = (bdInitScrape s url userId platform pl submit jid now now2).2.1.jobs from rfl,
      bdInitScrape_jobs] at hp
    rcases mem_insertKey hp with rfl | hmem
    · exact bdInitScrape_inv s url userId platform pl submit jid now now2
    · exact hs p hmem
  | poll jid resp now =>
    intro p hp
    cases hjy : List.lookup jid s.jobs with
    | none =>
      simp only [bdApply, bdGetStatus, hjy] at hp
      exact hs p hp
    | some jb =>
      by_cases ht : isTerminal jb.status = true
      · simp only [bdApply, bdGetStatus, hjy, ht, if_true] at hp
        exact hs p hp
      · simp only [bdApply, bdGetStatus, hjy, if_neg ht] at hp
        rcases mem_insertKey hp with rfl | hmem
        · exact bdPollUpdate_inv jb _ resp now
            (hs (jid, jb) (lookup_mem hjy)) (Bool.eq_false_iff.mpr ht)
        · exact hs p hmem
  | cancel jid now =>
    intro p hp
    cases hjy : List.lookup jid s.jobs with
    | none =>
      simp only [bdApply, bdCancel, hjy] at hp
      exact hs p hp
    | some jb =>
      by_cases ht : isTerminal jb.status = true
      · simp only [bdApply, bdCancel, hjy, ht, if_true] at hp
        exact hs p hp
      · simp only [bdApply, bdCancel, hjy, if_neg ht] at hp
        rcases mem_insertKey hp with rfl | hmem
        · have hres := (jobInv_fields jb (hs (jid, jb) (lookup_mem hjy))
            (Bool.eq_false_iff.mpr ht)).1
          apply jobInv_failed <;> simp [hres]
        · exact hs p hmem

theorem bdRun_inv (ops : List BDOp) :
    ∀ (s : BDState), (∀ p ∈ s.jobs, jobInv p.2 = true) →
      ∀ p ∈ (bdRun s ops).jobs, jobInv p.2 = true := by
  induction ops with
  | nil => exact fun s hs => hs
  | cons op rest ih =>
    intro s hs
    have h1 := bdApply_inv s op hs
    have h2 := ih (bdApply s op) h1
    simpa [bdRun, List.foldl] using h2

theorem pwApply_inv (s : PWState) (op : PWOp)
    (hs : ∀ p ∈ s.jobs, jobInv p.2 = true) :
    ∀ p ∈ (pwApply s op).jobs, jobInv p.2 = true := by
  cases op with
  | start url userId platform pl tl outcome jid now now2 elapsed =>
    intro p hp
    rw [show (pwApply s (.start url userId platform pl tl outcome jid now now2
          elapsed)).jobs
        = (pwInitScrape s url userId platform pl tl outcome jid now now2
            elapsed).2.jobs from rfl,
      pwInitScrape_jobs] at hp
    rcases mem_insertKey hp with rfl | hmem
    · exact pwInitScrape_inv s url userId platform pl tl outcome jid now now2 elapsed
    · exact hs p hmem
  | status jid => exact hs
  | cancel jid => exact hs
  | results jid => exact hs

theorem pwRun_inv (ops : List PWOp) :
    ∀ (s : PWState), (∀ p ∈ s.jobs, jobInv p.2 = true) →
      ∀ p ∈ (pwRun s ops).jobs, jobInv p.2 = true := by
  induction ops with
  | nil => exact fun s hs => hs
  | cons op rest ih =>
    intro s hs
    have h1 := pwApply_inv s op hs
    have h2 := ih (pwApply s op) h1
    simpa [pwRun, List.foldl] using h2

/-- Claim C2: along any sequence of engine operations on either engine, every
job in the registry satisfies the field invariant, and that invariant says
exactly: result and error are both absent while the status is pending or
running, they are never both present, result is present only on completed
jobs, and error only on failed jobs.  In particular every job reachable from
a fresh engine state satisfies it. -/
theorem c2_result_error_exclusive :
    (∀ (s : BDState) (ops : List BDOp),
      (∀ p ∈ s.jobs, jobInv p.2 = true) →
      ∀ p ∈ (bdRun s ops).jobs, jobInv p.2 = true) ∧
    (∀ (s : PWState) (ops : List PWOp),
      (∀ p ∈ s.jobs, jobInv p.2 = true) →
      ∀ p ∈ (pwRun s ops).jobs, jobInv p.2 = true) ∧
    (∀ ops, ∀ p ∈ (bdRun bdEmpty ops).jobs, jobInv p.2 = true) ∧
    (∀ ops, ∀ p ∈ (pwRun pwEmpty ops).jobs, jobInv p.2 = true) ∧
    (∀ j : ScrapeJob, jobInv j = true →
      ¬(j.result.isSome = true ∧ j.error.isSome = true) ∧
      ((j.status = .pending ∨ j.status = .running) →
        j.result = none ∧ j.error = none) ∧
      (j.result.isSome = true → j.status = .completed) ∧
      (j.error.isSome = true → j.status = .failed)) := by
  refine ⟨fun s ops => bdRun_inv ops s, fun s ops => pwRun_inv ops s,
    fun ops => bdRun_inv ops bdEmpty (by intro p hp; simp [bdEmpty] at hp),
    fun ops => pwRun_inv ops pwEmpty (by intro p hp; simp [pwEmpty] at hp),
    ?_⟩
  intro j hinv
  simp only [jobInv, Bool.and_eq_true] at hinv
  obtain ⟨⟨⟨h1, h2⟩, h3⟩, h4⟩ := hinv
  refine ⟨?_, ?_, ?_, ?_⟩
  · intro ⟨hr, he⟩
    simp [hr, he] at h2
  · intro hpr
    rw [if_pos hpr] at h1
    simp at h1
    exact ⟨h1.1, h1.2⟩
  · intro hr
    rw [if_pos hr] at h3
    exact of_decide_eq_true h3
  · intro he
    rw [if_pos he] at h4
    exact of_decide_eq_true h4

/-- Witness for C2: running a fresh submission against an empty async engine
state leaves a registry whose single job satisfies the invariant, and the
sample running job's invariant yields the claimed field facts. -/
theorem c2_witness :
    jobInv (bdInitScrape bdEmpty "https://x.com/u" "alice" "twitter" none
        (.accepted "snap1") "j1" 0 0).1 = true ∧
    (sampleRunningJob.result = none ∧ sampleRunningJob.error = none) :=
  ⟨c2_result_error_exclusive.2.2.1
      [.start "https://x.com/u" "alice" "twitter" none (.accepted "snap1") "j1" 0 0]
      ("j1", (bdInitScrape bdEmpty "https://x.com/u" "alice" "twitter" none
        (.accepted "snap1") "j1" 0 0).1) (by decide),
   (c2_result_error_exclusive.2.2.2.2 sampleRunningJob (by decide)).2.1
      (Or.inr (by decide))⟩

theorem lookup_cons_eq (a : String) (b : α) (t : List (String × α)) :
    List.lookup a ((a, b) :: t) = some b := by
  simp [List.lookup]

theorem lookup_cons_ne (x a : String) (b : α) (t : List (String × α)) (h : x ≠ a) :
    List.lookup x ((a, b) :: t) = List.lookup x t := by
  have hx : (x == a) = false := by simp [beq_iff_eq, h]
  rw [List.lookup, hx]

theorem removeJob_jobs_self (st : JMState) (id : String) :
    List.lookup id (removeJob st id).jobs = none := by
  cases h : List.lookup id st.jobs with
  | none => simp only [removeJob, h]
  | some j =>
    simp only [removeJob, h]
    exact lookup_eraseKey_self id st.jobs

theorem removeJob_jobs_ne (st : JMState) (id x : String) (h : x ≠ id) :
    List.lookup x (removeJob st id).jobs = List.lookup x st.jobs := by
  cases hy : List.lookup id st.jobs with
  | none => simp only [removeJob, hy]
  | some j =>
    simp only [removeJob, hy]
    exact lookup_eraseKey_ne id x st.jobs h

theorem removeJob_engines (st : JMState) (id x : String) :
    List.lookup x (removeJob st id).engines
      = if x = id then none else List.lookup x st.engines := by
  cases hy : List.lookup id st.jobs with
  | none =>
    simp only [removeJob, hy]
    by_cases hx : x = id
    · subst hx
      rw [if_pos rfl]
      exact lookup_eraseKey_self x st.engines
    · rw [if_neg hx]
      exact lookup_eraseKey_ne id x st.engines hx
  | some j =>
    simp only [removeJob, hy]
    by_cases hx : x = id
    · subst hx
      rw [if_pos rfl]
      exact lookup_eraseKey_self x st.engines
    · rw [if_neg hx]
      exact lookup_eraseKey_ne id x st.engines hx

theorem foldRemove_jobs (ids : List String) :
    ∀ (st : JMState) (x : String),
      List.lookup x (ids.foldl removeJob st).jobs
        = if x ∈ ids then none else List.lookup x st.jobs := by
  induction ids with
  | nil => intro st x; simp
  | cons a rest ih =>
    intro st x
    rw [List.foldl_cons, ih]
    by_cases hx : x ∈ rest
    · simp [hx]
    · rw [if_neg hx]
      by_cases hxa : x = a
      · subst hxa
        rw [if_pos (List.mem_cons_self _ _)]
        exact removeJob_jobs_self st x
      · rw [if_neg (by simp [hxa, hx])]
        exact removeJob_jobs_ne st a x hxa

theorem foldRemove_engines (ids : List String) :
    ∀ (st : JMState) (x : String),
      List.lookup x (ids.foldl removeJob st).engines
        = if x ∈ ids then none else List.lookup x st.engines := by
  induction ids with
  | nil => intro st x; simp
  | cons a rest ih =>
    intro st x
    rw [List.foldl_cons, ih]
    by_cases hx : x ∈ rest
    · simp [hx]
    · rw [if_neg hx]
      by_cases hxa : x = a
      · subst hxa
        rw [if_pos (List.mem_cons_self _ _), removeJob_engines, if_pos rfl]
      · rw [if_neg (by simp [hxa, hx]), removeJob_engines, if_neg hxa]

theorem lookup_updateVal (k u : String) (f : α → α) (l : List (String × α)) :
    List.lookup u (updateVal k f l)
      = if u = k then (List.lookup u l).map f else List.lookup u l := by
  induction l with
  | nil =>
    simp only [updateVal, List.map_nil, List.lookup]
    split <;> rfl
  | cons p t ih =>
    rcases p with ⟨a, b⟩
    have hcons : updateVal k f ((a, b) :: t)
        = (if a = k then (a, f b) else (a, b)) :: updateVal k f t := rfl
    rw [hcons]
    by_cases hak : a = k
    · rw [if_pos hak]
      subst hak
      by_cases hua : u = a
      · subst hua
        rw [lookup_cons_eq, lookup_cons_eq, if_pos rfl, Option.map_some']
      · rw [lookup_cons_ne u a _ _ hua, lookup_cons_ne u a _ _ hua, ih]
    · rw [if_neg hak]
      by_cases hua : u = a
      · subst hua
        rw [lookup_cons_eq, lookup_cons_eq, if_neg hak]
      · rw [lookup_cons_ne u a _ _ hua, lookup_cons_ne u a _ _ hua, ih]

theorem removeJob_user_not_mem (st : JMState) (id2 u x : String)
    (h : ∀ l, List.lookup u st.user_jobs = some l → x ∉ l) :
    ∀ l, List.lookup u (removeJob st id2).user_jobs = some l → x ∉ l := by
  intro l hl
  cases hy : List.lookup id2 st.jobs with
  | none =>
    rw [show (removeJob st id2).user_jobs = st.user_jobs by
      simp only [removeJob, hy]] at hl
    exact h l hl
  | some j =>
    rw [show (removeJob st id2).user_jobs
        = updateVal j.user_id (fun l => l.erase id2) st.user_jobs by
      simp only [removeJob, hy]] at hl
    rw [lookup_updateVal] at hl
    by_cases hu : u = j.user_id
    · rw [if_pos hu] at hl
      cases hla : List.lookup u st.user_jobs with
      | none => rw [hla] at hl; cases hl
      | some l0 =>
        rw [hla] at hl
        have he : l0.erase id2 = l := by simpa using hl
        subst he
        intro hx
        exact h l0 hla (List.mem_of_mem_erase hx)
    · rw [if_neg hu] at hl
      exact h l hl

theorem foldRemove_user_not_mem (ids : List String) :
    ∀ (st : JMState) (u x : String),
      (∀ l, List.lookup u st.user_jobs = some l → x ∉ l) →
      ∀ l, List.lookup u (ids.foldl removeJob st).user_jobs = some l → x ∉ l := by
  induction ids with
  | nil => exact fun st u x h => h
  | cons a rest ih =>
    intro st u x h
    rw [List.foldl_cons]
    exact ih _ u x (removeJob_user_not_mem st a u x h)

theorem removeJob_user_nodup (st : JMState) (id2 : String)
    (h : ∀ p ∈ st.user_jobs, p.2.Nodup) :
    ∀ p ∈ (removeJob st id2).user_jobs, p.2.Nodup := by
  cases hy : List.lookup id2 st.jobs with
  | none =>
    rw [show (removeJob st id2).user_jobs = st.user_jobs by
      simp only [removeJob, hy]]
    exact h
  | some j =>
    rw [show (removeJob st id2).user_jobs
        = updateVal j.user_id (fun l => l.erase id2) st.user_jobs by
      simp only [removeJob, hy]]
    intro p hp
    obtain ⟨q, hq, hqe⟩ := List.mem_map.mp hp
    by_cases hqk : q.1 = j.user_id
    · rw [if_pos hqk] at hqe
      subst hqe
      exact (h q hq).erase id2
    · rw [if_neg hqk] at hqe
      subst hqe
      exact h q hq

theorem lookup_of_mem_nodup {l : List (String × α)}
    (hnd : (l.map Prod.fst).Nodup) {k : String} {v : α}
    (h : (k, v) ∈ l) : List.lookup k l = some v := by
  induction l with
  | nil => cases h
  | cons p t ih =>
    rcases p with ⟨a, b⟩
    rcases List.mem_cons.mp h with he | hm
    · cases he
      simp [List.lookup]
    · have hka : k ≠ a := by
        intro e
        subst e
        have : k ∈ t.map Prod.fst := List.mem_map.mpr ⟨(k, v), hm, rfl⟩
        exact (List.nodup_cons.mp hnd).1 this
      have hx : (k == a) = false := by simp [beq_iff_eq, hka]
      rw [List.lookup, hx]
      exact ih (List.nodup_cons.mp hnd).2 hm

theorem mem_stale_ids (st : JMState) (cutoff : Int) (jid : String) (j : ScrapeJob)
    (hnd : (st.jobs.map Prod.fst).Nodup)
    (hj : List.lookup jid st.jobs = some j) :
    (jid ∈ (st.jobs.filter (fun p => isStale cutoff p.2)).map Prod.fst)
      ↔ isStale cutoff j = true := by
  constructor
  · intro h
    obtain ⟨p, hp, hpe⟩ := List.mem_map.mp h
    have hpf := List.mem_filter.mp hp
    rcases p with ⟨a, w⟩
    cases hpe
    have hw : List.lookup a st.jobs = some w := lookup_of_mem_nodup hnd hpf.1
    rw [hj] at hw
    have hjw : j = w := Option.some_injective _ hw
    subst hjw
    exact hpf.2
  · intro h
    exact List.mem_map.mpr ⟨(jid, j), List.mem_filter.mpr ⟨lookup_mem hj, h⟩, rfl⟩

theorem not_mem_erase_self {l : List String} (h : l.Nodup) (a : String) :
    a ∉ l.erase a := by
  induction l with
  | nil => intro hmem; rw [List.erase_nil] at hmem; cases hmem
  | cons b t ih =>
    rcases List.nodup_cons.mp h with ⟨hb, ht⟩
    by_cases hab : b = a
    · subst hab
      rw [List.erase_cons_head]
      exact hb
    · have hx : (b == a) = false := by simp [beq_iff_eq, hab]
      rw [List.erase_cons, if_neg (by simp [hx])]
      intro hmem
      rcases List.mem_cons.mp hmem with he | hmem2
      · exact hab he.symm
      · exact ih ht hmem2

theorem removeJob_user_clears (st : JMState) (jid : String) (j : ScrapeJob)
    (hj : List.lookup jid st.jobs = some j)
    (hnu : ∀ p ∈ st.user_jobs, p.2.Nodup) :
    ∀ l, List.lookup j.user_id (removeJob st jid).user_jobs = some l → jid ∉ l := by
  intro l hl
  rw [show (removeJob st jid).user_jobs
      = updateVal j.user_id (fun l => l.erase jid) st.user_jobs by
    simp only [removeJob, hj]] at hl
  rw [lookup_updateVal, if_pos rfl] at hl
  cases hla : List.lookup j.user_id st.user_jobs with
  | none => rw [hla] at hl; cases hl
  | some l0 =>
    rw [hla] at hl
    have he : l0.erase jid = l := by simpa using hl
    subst he
    exact not_mem_erase_self (hnu (j.user_id, l0) (lookup_mem hla)) jid

theorem foldRemove_user_clears (ids : List String) :
    ∀ (st : JMState), ids.Nodup →
      (∀ p ∈ st.user_jobs, p.2.Nodup) →
      ∀ jid ∈ ids, ∀ j, List.lookup jid st.jobs = some j →
        ∀ l, List.lookup j.user_id (ids.foldl removeJob st).user_jobs = some l →
          jid ∉ l := by
  induction ids with
  | nil => simp
  | cons a rest ih =>
    intro st hnd hnu jid hid j hj
    rw [List.foldl_cons]
    rcases List.mem_cons.mp hid with rfl | hmem
    · exact foldRemove_user_not_mem rest (removeJob st jid) j.user_id jid
        (removeJob_user_clears st jid j hj hnu)
    · have ha : jid ≠ a := by
        intro e
        subst e
        exact (List.nodup_cons.mp hnd).1 hmem
      exact ih (removeJob st a) (List.nodup_cons.mp hnd).2
        (removeJob_user_nodup st a hnu) jid hmem j
        (by rw [removeJob_jobs_ne st a jid ha]; exact hj)

/-- Claim C8: cleanup removes exactly the jobs that are terminal and whose
last update is older than now minus the age limit (in hours), deleting each
such job from the job map, the engine map and the owning user's job-id list;
jobs whose status is pending or running survive regardless of age, as does
every job id not matching the eviction predicate. -/
theorem c8_cleanup (st : JMState) (maxAgeHours : Nat) (now : Int)
    (hnd : (st.jobs.map Prod.fst).Nodup)
    (hnu : ∀ p ∈ st.user_jobs, p.2.Nodup) :
    (∀ jid j, List.lookup jid st.jobs = some j →
      List.lookup jid (cleanupOldJobs st maxAgeHours now).jobs
        = if isStale (now - (maxAgeHours : Int) * 3600) j then none else some j) ∧
    (∀ jid j, List.lookup jid st.jobs = some j →
      isStale (now - (maxAgeHours : Int) * 3600) j = true →
      List.lookup jid (cleanupOldJobs st maxAgeHours now).engines = none ∧
      (∀ l, List.lookup j.user_id (cleanupOldJobs st maxAgeHours now).user_jobs
          = some l → jid ∉ l)) ∧
    (∀ jid j, List.lookup jid st.jobs = some j →
      (j.status = .pending ∨ j.status = .running) →
      List.lookup jid (cleanupOldJobs st maxAgeHours now).jobs = some j) ∧
    (∀ jid, List.lookup jid st.jobs = none →
      List.lookup jid (cleanupOldJobs st maxAgeHours now).jobs = none) := by
  have hjobs : ∀ jid j, List.lookup jid st.jobs = some j →
      List.lookup jid (cleanupOldJobs st maxAgeHours now).jobs
        = if isStale (now - (maxAgeHours : Int) * 3600) j then none else some j := by
    intro jid j hj
    rw [cleanupOldJobs, foldRemove_jobs]
    rw [if_congr (mem_stale_ids st _ jid j hnd hj) rfl rfl, hj]
  refine ⟨hjobs, ?_, ?_, ?_⟩
  · intro jid j hj hstale
    constructor
    · rw [cleanupOldJobs, foldRemove_engines,
        if_pos ((mem_stale_ids st _ jid j hnd hj).mpr hstale)]
    · have hsub : ((st.jobs.filter
          (fun p => isStale (now - (maxAgeHours : Int) * 3600) p.2)).map
            Prod.fst).Nodup :=
        ((List.filter_sublist st.jobs).map Prod.fst).nodup hnd
      exact foldRemove_user_clears _ st hsub hnu jid
        ((mem_stale_ids st _ jid j hnd hj).mpr hstale) j hj
  · intro jid j hj hpr
    rw [hjobs jid j hj]
    have : isStale (now - (maxAgeHours : Int) * 3600) j = false := by
      rcases hpr with h | h <;> simp [isStale, isTerminal, h]
    rw [this]
    rfl
  · intro jid hj
    rw [cleanupOldJobs, foldRemove_jobs]
    split
    · rfl
    · exact hj

/-- Witness for C8 on the sample registry with a 24-hour age limit at time
360000: the stale completed job is gone from all three structures, while the
equally old running job and the recently updated completed job survive. -/
theorem c8_witness :
    List.lookup "a" (cleanupOldJobs sampleJMState 24 360000).jobs = none ∧
    List.lookup "a" (cleanupOldJobs sampleJMState 24 360000).engines = none ∧
    (∀ l, List.lookup "alice" (cleanupOldJobs sampleJMState 24 360000).user_jobs
        = some l → "a" ∉ l) ∧
    List.lookup "b" (cleanupOldJobs sampleJMState 24 360000).jobs
      = some oldRunningJob ∧
    List.lookup "c" (cleanupOldJobs sampleJMState 24 360000).jobs
      = some newDoneJob := by
  have h := c8_cleanup sampleJMState 24 360000 (by decide) (by decide)
  refine ⟨?_, ?_, ?_, ?_, ?_⟩
  · rw [h.1 "a" oldDoneJob (by decide)]
    decide
  · exact (h.2.1 "a" oldDoneJob (by decide) (by decide)).1
  · exact (h.2.1 "a" oldDoneJob (by decide) (by decide)).2
  · exact h.2.2.1 "b" oldRunningJob (by decide) (Or.inr (by decide))
  · rw [h.1 "c" newDoneJob (by decide)]
    decide

end Bellflow
